import Mathlib

/-!
# Verification of the Tableau file-unification app (`src/app.py`)

Shallow embedding of the pipeline in `app.py`:

* `unificar_archivos_subidos` (lines 8–61): the batch merge loop over
  uploaded spreadsheet files;
* the engine dispatch on file extension (lines 30–35);
* the `pd.concat(dfs, ignore_index=True)` merge (line 59), modelled with
  pandas' union-of-columns alignment semantics;
* the artifact writer `to_excel(writer, sheet_name=..., index=False)`
  (lines 174–189 of `main`);
* the API-version gate `float(server.version) < 2.8` (line 265);
* the datasource lookup and the "first 10 names plus remaining count"
  display (lines 88–111 and 315–325).

Python exceptions are modelled with `Except String`; an uncaught exception
escaping the function is the `.error` case.  Streamlit display calls that
claims refer to (the `st.error` records of the per-file failure branch) are
modelled as an explicit list carried in the state; purely cosmetic display
calls (`st.write` progress lines, the progress bar) are not modelled.
-/

set_option autoImplicit false

deriving instance DecidableEq for Except

namespace TableauApp

/-- A spreadsheet cell as pandas sees it after reading: `none` models NaN
(missing value under column alignment), `some s` a concrete value.  Cell
payloads are modelled as strings; the pipeline never inspects them. -/
def Celda := Option String
deriving instance DecidableEq, Repr for Celda

/-- A parsed sheet (`pd.DataFrame`): an ordered list of column names and an
ordered list of rows, each row positionally aligned with `columnas`. -/
structure Tabla where
  columnas : List String
  filas : List (List Celda)
deriving DecidableEq, Repr

/-- One uploaded file as the loop body sees it.

* `nameRes` models the attribute access `archivo.name` (line 27), which in
  the embedding may raise (`.error`) — this is what claim C8 is about;
* `leerExcel hoja motor` models `pd.read_excel(archivo, sheet_name=hoja,
  engine=motor)` (line 38): the outcome of reading this file's bytes with
  the given sheet name and engine, `.error` being a raised exception with
  its message. -/
structure Archivo where
  nameRes : Except String String
  leerExcel : String → Option String → Except String Tabla

/-- `str.lower()`: lower-case every character. -/
def minusculas (s : String) : String :=
  ⟨s.data.map Char.toLower⟩

/-- The separator character of line 31, `'.'`. -/
def punto : Char := Char.ofNat 46

/-- Python `str.split(sep)` on a character list: the (always non-empty)
list of separator-free chunks, so that `split('.')[-1]` is the chunk after
the last separator (the whole string when no separator occurs). -/
def parte (sep : Char) : List Char → List (List Char)
  | [] => [[]]
  | c :: cs =>
    let r := parte sep cs
    if c = sep then [] :: r
    else
      match r with
      | [] => [[c]]
      | p :: ps => (c :: p) :: ps

/-- Lines 30–31: `extension = nombre_archivo.lower().split('.')[-1]`. -/
def extensionDe (nombre : String) : String :=
  ⟨(parte punto (minusculas nombre).data).getLastD []⟩

/-- Lines 32–35: `engine = 'xlrd' if extension == 'xls' else None`
(`none` lets pandas pick the default zip-based engine for xlsx). -/
def motorPara (nombre : String) : Option String :=
  if extensionDe nombre = "xls" then some "xlrd" else none

/-- Line 51: the message of the `st.error` call in the `except` branch. -/
def mensajeError (nombre : String) (causa : String) : String :=
  "Error al procesar " ++ nombre ++ ": " ++ causa

/-- Line 61: the success message returned with the merged dataset. -/
def mensajeExito (archivosOk : Nat) (filas : Nat) : String :=
  "Se han unificado " ++ toString archivosOk ++
    " archivos con un total de " ++ toString filas ++ " filas."

/-- The mutable state of the loop at lines 19–51: the accumulated
dataframes `dfs`, the counter `archivos_ok`, the `st.error` records emitted
so far, and the current binding of the local variable `nombre_archivo`
(`none` while it has never been assigned). -/
structure Estado where
  dfs : List Tabla
  archivosOk : Nat
  errores : List String
  ultimoNombre : Option String
deriving DecidableEq, Repr

/-- The initial loop state (lines 19–21): empty accumulator, counter 0,
no `st.error` emitted, `nombre_archivo` unbound. -/
def estadoInicial : Estado := ⟨[], 0, [], none⟩

/-- One iteration of the `for` loop (lines 24–51).

The `try` block first evaluates `archivo.name`; if that raises, control
goes to the `except` branch with `nombre_archivo` still holding its
previous binding — and if it was never bound, the f-string of line 51
itself raises `UnboundLocalError`, which is not caught and aborts the
whole function (the outer `.error`).  If the name is obtained, the engine
is chosen from it and `pd.read_excel` runs: on success the dataframe is
appended and the counter incremented; on failure line 51 records the
error under the (now current) name and the loop continues. -/
def pasoArchivo (hoja : String) (st : Estado) (a : Archivo) :
    Except String Estado :=
  match a.nameRes with
  | .error causa =>
    match st.ultimoNombre with
    | none =>
      .error "UnboundLocalError: local variable nombre_archivo referenced before assignment"
    | some n =>
      .ok { st with errores := st.errores ++ [mensajeError n causa] }
  | .ok nombre =>
    match a.leerExcel hoja (motorPara nombre) with
    | .error causa =>
      .ok { st with
              ultimoNombre := some nombre
              errores := st.errores ++ [mensajeError nombre causa] }
    | .ok df =>
      .ok { st with
              ultimoNombre := some nombre
              dfs := st.dfs ++ [df]
              archivosOk := st.archivosOk + 1 }

/-- The loop of lines 24–51, run from an arbitrary state. -/
def procesaDesde (hoja : String) (st : Estado) :
    List Archivo → Except String Estado
  | [] => .ok st
  | a :: resto =>
    match pasoArchivo hoja st a with
    | .error e => .error e
    | .ok st' => procesaDesde hoja st' resto

/-- The loop of lines 24–51 from the initial state. -/
def procesaArchivos (archivos : List Archivo) (hoja : String) :
    Except String Estado :=
  procesaDesde hoja estadoInicial archivos

/-- Ordered union of column lists, keeping first occurrences: the column
alignment `pd.concat` applies to non-identical schemas (`sort=False`
default: columns appear in order of first appearance). -/
def unionColumnas (acc : List String) (cols : List String) : List String :=
  acc ++ cols.filter (fun c => !acc.contains c)

/-- The columns of the concatenated frame: union over all frames. -/
def columnasUnion (ts : List Tabla) : List String :=
  ts.foldl (fun acc t => unionColumnas acc t.columnas) []

/-- Reindex one row from its own column list to the destination column
list, filling NaN (`none`) for columns the row's frame does not have —
pandas' alignment of each input frame to the union of columns. -/
def reindexaFila (colsOrig : List String) (fila : List Celda)
    (colsDest : List String) : List Celda :=
  colsDest.map (fun c => (((colsOrig.zip fila).lookup c).getD none))

/-- Line 59: `pd.concat(dfs, ignore_index=True)` — frames are stacked in
list order, each aligned to the union of columns, and the row index is
discarded (rows keep their order, positions renumbered). -/
def concatIgnoreIndex (ts : List Tabla) : Tabla :=
  { columnas := columnasUnion ts
    filas := ts.flatMap fun t =>
      t.filas.map fun f => reindexaFila t.columnas f (columnasUnion ts) }

/-- What `unificar_archivos_subidos` produces when it returns normally:
the optional merged dataframe and the message of the returned tuple, plus
the `st.error` records displayed along the way. -/
structure Resultado where
  dataset : Option Tabla
  mensaje : String
  errores : List String
deriving DecidableEq, Repr

/-- Lines 8–61: `unificar_archivos_subidos(archivos, nombre_hoja)`.
Empty selection short-circuits (line 12) before the loop; after the loop,
an empty accumulator returns no dataset with the total-failure message
(lines 54–55); otherwise the frames are concatenated and the success
message reports `archivos_ok` and `len(df_final)` (lines 59–61). -/
def unificar_archivos_subidos (archivos : List Archivo) (hoja : String) :
    Except String Resultado :=
  if archivos.isEmpty then
    .ok ⟨none, "No se han seleccionado archivos.", []⟩
  else
    (procesaArchivos archivos hoja).map fun st =>
      if st.dfs.isEmpty then
        ⟨none, "No se pudo procesar ningún archivo correctamente.", st.errores⟩
      else
        let dfFinal := concatIgnoreIndex st.dfs
        ⟨some dfFinal, mensajeExito st.archivosOk dfFinal.filas.length,
          st.errores⟩

/-- The outcome `read` has for one file, seen statically: `none` when the
name access or the read raises, `some t` when the sheet parses to `t`. -/
def lecturaDe (hoja : String) (a : Archivo) : Option Tabla :=
  match a.nameRes with
  | .error _ => none
  | .ok nombre => (a.leerExcel hoja (motorPara nombre)).toOption

/-- The successfully read per-file tables, in input order. -/
def tablasExitosas (hoja : String) (archivos : List Archivo) : List Tabla :=
  archivos.filterMap (lecturaDe hoja)

/-! ## Artifact writer (lines 174–189 of `main`)

`df_unificado.to_excel(writer, sheet_name=nombre_hoja_salida, index=False)`
inside `pd.ExcelWriter(excel_buffer)`: the workbook written to the download
buffer holds exactly the one sheet `to_excel` emits. -/

/-- A written workbook: its sheets, each a name and a cell grid
(header row followed by data rows). -/
structure Artefacto where
  hojas : List (String × List (List Celda))
deriving DecidableEq, Repr

/-- `DataFrame.to_excel(..., sheet_name, index)`: the emitted grid is the
header row of column names followed by the data rows; with `index=True`
every row (header included) is prefixed by an index cell, with
`index=False` no index column is emitted. -/
def serializaTabla (t : Tabla) (index : Bool) : List (List Celda) :=
  if index then
    (none :: t.columnas.map some) ::
      (t.filas.enum.map fun fi => some (toString fi.1) :: fi.2)
  else
    (t.columnas.map some) :: t.filas

/-- Lines 174–177: write the merged dataframe into a fresh buffer as one
sheet named `nombreHoja`, with `index=False`. -/
def escribirArtefacto (t : Tabla) (nombreHoja : String) : Artefacto :=
  ⟨[(nombreHoja, serializaTabla t false)]⟩

/-! ## API-version gate (lines 264–295 of `main`) -/

/-- The numeric value of a run of decimal digit characters. -/
def valorDigitos (cs : List Char) : Nat :=
  cs.foldl (fun n c => n * 10 + (c.toNat - 48)) 0

/-- Python `float(...)` on the version strings the server reports
(`"<digits>.<digits>"`, or just digits): the exact value of the decimal
literal, kept as an exact numerator/denominator pair
`(ent * 10^k + frac, 10^k)`.  Any other shape raises `ValueError`
(`none`).  The value is exact where CPython rounds to binary double; for
the short decimal strings Tableau servers report, rounding cannot move a
value across the 2.8 threshold, so the comparison below agrees with the
double comparison of line 265. -/
def parseDecimal? (s : String) : Option (Nat × Nat) :=
  match parte punto s.data with
  | [a] =>
    if !a.isEmpty && a.all Char.isDigit then some (valorDigitos a, 1)
    else none
  | [a, b] =>
    if !a.isEmpty && a.all Char.isDigit && !b.isEmpty && b.all Char.isDigit
    then some (valorDigitos a * 10 ^ b.length + valorDigitos b, 10 ^ b.length)
    else none
  | _ => none

/-- The rational a parsed numerator/denominator pair denotes. -/
def valorDecimal (nd : Nat × Nat) : ℚ :=
  (nd.1 : ℚ) / (nd.2 : ℚ)

/-- Which path the version check routes to. -/
inductive RutaRefresh where
  /-- Lines 266–286: warn that the API does not support automatic refresh
  and show the manual-refresh instructions; `refresh` is never called. -/
  | manual : RutaRefresh
  /-- Lines 288–291: attempt `server.datasources.refresh(datasource.id)`. -/
  | automatica : RutaRefresh
deriving DecidableEq, Repr

/-- Line 265: `if float(server.version) < 2.8:` routes to the manual
instructions, else to the automatic refresh attempt; a version string
`float` cannot parse raises out of the handler.  The comparison
`num/den < 28/10` is performed as `10 * num < 28 * den`. -/
def rutaActualizacion (version : String) : Except String RutaRefresh :=
  match parseDecimal? version with
  | none => .error ("ValueError: could not convert string to float: " ++ version)
  | some nd => .ok (if 10 * nd.1 < 28 * nd.2 then .manual else .automatica)

/-! ## Datasource lookup and fallback display (lines 88–121, 315–325) -/

/-- Lines 94–106 (`buscar_fuente_datos`): the server-side filter keeps the
datasources whose name equals the requested one exactly (case-sensitive
`Equals`), and the first match is taken; no match yields `none`. -/
def buscar_fuente_datos (nombres : List String) (objetivo : String) :
    Option String :=
  (nombres.filter (fun n => n = objetivo)).head?

/-- Lines 319–325: when the lookup failed, the available names are listed
— only the first 10 of them (`fuentes_disponibles[:10]`) — and, when more
than 10 exist, a final `... y {len-10} más` line gives the remaining
count.  Result: the names written, and the remaining-count indicator. -/
def muestraDisponibles (nombres : List String) :
    List String × Option Nat :=
  (nombres.take 10,
   if nombres.length > 10 then some (nombres.length - 10) else none)

/-- Number of inputs whose processing fails (name access or read raises). -/
def cuentaFallos (hoja : String) (archivos : List Archivo) : Nat :=
  archivos.countP (fun a => (lecturaDe hoja a).isNone)

/-! ## Concrete inputs used to exercise the model -/

/-- A two-row table over columns `col1, col2`. -/
def tablaA : Tabla :=
  ⟨["col1", "col2"], [[some "1", some "2"], [some "3", some "4"]]⟩

/-- A one-row table over columns `col1, col2`. -/
def tablaB : Tabla :=
  ⟨["col1", "col2"], [[some "5", some "6"]]⟩

/-- An upload whose name access succeeds and whose designated sheet always
parses to `t`. -/
def archivoBueno (nombre : String) (t : Tabla) : Archivo :=
  ⟨.ok nombre, fun _ _ => .ok t⟩

/-- An upload whose name access succeeds but whose read always raises (as
when the requested sheet does not exist in the workbook). -/
def archivoIlegible (nombre : String) : Archivo :=
  ⟨.ok nombre, fun hoja _ =>
    .error ("ValueError: Worksheet named " ++ hoja ++ " not found")⟩

/-- An upload whose `.name` attribute access itself raises. -/
def archivoSinNombre : Archivo :=
  ⟨.error "AttributeError: el objeto no tiene atributo name", fun _ _ => .ok tablaA⟩

/-- Fifteen datasource names, as held by a server in the C6 scenario. -/
def quinceFuentes : List String :=
  ["Ventas", "Compras", "Clientes", "Proveedores", "Inventario",
   "Presupuesto", "Gastos", "Ingresos", "Personal", "Marketing",
   "Logistica", "Calidad", "Produccion", "Finanzas", "Auditoria"]

/-! ## Loop characterization -/

theorem exitosas_add_fallos (hoja : String) (archivos : List Archivo) :
    (tablasExitosas hoja archivos).length + cuentaFallos hoja archivos =
      archivos.length := by
  induction archivos with
  | nil => simp [tablasExitosas, cuentaFallos]
  | cons a resto ih =>
    simp only [tablasExitosas, cuentaFallos, List.filterMap_cons,
      List.countP_cons, List.length_cons] at *
    cases h : lecturaDe hoja a <;> simp [h] <;> omega

theorem procesaDesde_cons_ok (hoja : String) (st st1 : Estado) (a : Archivo)
    (resto : List Archivo) (h : pasoArchivo hoja st a = .ok st1) :
    procesaDesde hoja st (a :: resto) = procesaDesde hoja st1 resto := by
  simp [procesaDesde, h]

theorem procesaDesde_spec (hoja : String) :
    ∀ (archivos : List Archivo) (st st' : Estado),
      procesaDesde hoja st archivos = .ok st' →
      st'.dfs = st.dfs ++ tablasExitosas hoja archivos ∧
      st'.archivosOk = st.archivosOk + (tablasExitosas hoja archivos).length ∧
      st'.errores.length = st.errores.length + cuentaFallos hoja archivos := by
  intro archivos
  induction archivos with
  | nil =>
    intro st st' h
    simp only [procesaDesde] at h
    cases h
    simp [tablasExitosas, cuentaFallos]
  | cons a resto ih =>
    intro st st' h
    cases hn : a.nameRes with
    | error causa =>
      cases hu : st.ultimoNombre with
      | none => simp [procesaDesde, pasoArchivo, hn, hu] at h
      | some n =>
        have hpa : pasoArchivo hoja st a =
            .ok { st with errores := st.errores ++ [mensajeError n causa] } := by
          simp [pasoArchivo, hn, hu]
        rw [procesaDesde_cons_ok hoja st _ a resto hpa] at h
        obtain ⟨h1, h2, h3⟩ := ih _ st' h
        have hl : lecturaDe hoja a = none := by simp [lecturaDe, hn]
        simp only [tablasExitosas, cuentaFallos, List.filterMap_cons_none hl,
          List.countP_cons, hl, Option.isNone_none] at *
        refine ⟨h1, h2, ?_⟩
        simp only [List.length_append, List.length_cons, List.length_nil,
          if_true] at h3 ⊢
        omega
    | ok nombre =>
      cases hr : a.leerExcel hoja (motorPara nombre) with
      | error causa =>
        have hpa : pasoArchivo hoja st a =
            .ok { st with ultimoNombre := some nombre
                          errores := st.errores ++ [mensajeError nombre causa] } := by
          simp [pasoArchivo, hn, hr]
        rw [procesaDesde_cons_ok hoja st _ a resto hpa] at h
        obtain ⟨h1, h2, h3⟩ := ih _ st' h
        have hl : lecturaDe hoja a = none := by
          simp [lecturaDe, hn, hr, Except.toOption]
        simp only [tablasExitosas, cuentaFallos, List.filterMap_cons_none hl,
          List.countP_cons, hl, Option.isNone_none] at *
        refine ⟨h1, h2, ?_⟩
        simp only [List.length_append, List.length_cons, List.length_nil,
          if_true] at h3 ⊢
        omega
      | ok df =>
        have hpa : pasoArchivo hoja st a =
            .ok { st with ultimoNombre := some nombre
                          dfs := st.dfs ++ [df]
                          archivosOk := st.archivosOk + 1 } := by
          simp [pasoArchivo, hn, hr]
        rw [procesaDesde_cons_ok hoja st _ a resto hpa] at h
        obtain ⟨h1, h2, h3⟩ := ih _ st' h
        have hl : lecturaDe hoja a = some df := by
          simp [lecturaDe, hn, hr, Except.toOption]
        simp only [tablasExitosas, cuentaFallos, List.filterMap_cons_some hl,
          List.countP_cons, hl, Option.isNone_some] at *
        refine ⟨by simpa using h1, ?_, by simpa using h3⟩
        simp only [List.length_cons] at h2 ⊢
        omega

theorem procesaDesde_total (hoja : String) :
    ∀ (archivos : List Archivo) (st : Estado), st.ultimoNombre.isSome →
      ∃ st', procesaDesde hoja st archivos = .ok st' ∧
        st'.ultimoNombre.isSome := by
  intro archivos
  induction archivos with
  | nil => intro st h; exact ⟨st, rfl, h⟩
  | cons a resto ih =>
    intro st h
    obtain ⟨n, hn⟩ := Option.isSome_iff_exists.1 h
    cases hna : a.nameRes with
    | error causa =>
      have hpa : pasoArchivo hoja st a =
          .ok { st with errores := st.errores ++ [mensajeError n causa] } := by
        simp [pasoArchivo, hna, hn]
      obtain ⟨st', hst', hs⟩ :=
        ih { st with errores := st.errores ++ [mensajeError n causa] }
          (by simpa using h)
      exact ⟨st', by rw [procesaDesde_cons_ok hoja st _ a resto hpa]; exact hst', hs⟩
    | ok nombre =>
      cases hr : a.leerExcel hoja (motorPara nombre) with
      | error causa =>
        have hpa : pasoArchivo hoja st a =
            .ok { st with ultimoNombre := some nombre
                          errores := st.errores ++ [mensajeError nombre causa] } := by
          simp [pasoArchivo, hna, hr]
        obtain ⟨st', hst', hs⟩ :=
          ih { st with ultimoNombre := some nombre
                       errores := st.errores ++ [mensajeError nombre causa] }
            (by simp)
        exact ⟨st', by rw [procesaDesde_cons_ok hoja st _ a resto hpa]; exact hst', hs⟩
      | ok df =>
        have hpa : pasoArchivo hoja st a =
            .ok { st with ultimoNombre := some nombre
                          dfs := st.dfs ++ [df]
                          archivosOk := st.archivosOk + 1 } := by
          simp [pasoArchivo, hna, hr]
        obtain ⟨st', hst', hs⟩ :=
          ih { st with ultimoNombre := some nombre
                       dfs := st.dfs ++ [df]
                       archivosOk := st.archivosOk + 1 }
            (by simp)
        exact ⟨st', by rw [procesaDesde_cons_ok hoja st _ a resto hpa]; exact hst', hs⟩

theorem procesaArchivos_total (hoja : String) (a : Archivo) (n : String)
    (resto : List Archivo) (hn : a.nameRes = .ok n) :
    ∃ st, procesaArchivos (a :: resto) hoja = .ok st := by
  cases hr : a.leerExcel hoja (motorPara n) with
  | error causa =>
    have hpa : pasoArchivo hoja estadoInicial a =
        .ok { estadoInicial with
                ultimoNombre := some n
                errores := [mensajeError n causa] } := by
      simp [pasoArchivo, estadoInicial, hn, hr]
    obtain ⟨st', hst', -⟩ := procesaDesde_total hoja resto
      { estadoInicial with ultimoNombre := some n
                           errores := [mensajeError n causa] } (by simp)
    exact ⟨st', by
      unfold procesaArchivos
      rw [procesaDesde_cons_ok hoja estadoInicial _ a resto hpa]
      exact hst'⟩
  | ok df =>
    have hpa : pasoArchivo hoja estadoInicial a =
        .ok { estadoInicial with
                ultimoNombre := some n
                dfs := [df]
                archivosOk := 1 } := by
      simp [pasoArchivo, estadoInicial, hn, hr]
    obtain ⟨st', hst', -⟩ := procesaDesde_total hoja resto
      { estadoInicial with ultimoNombre := some n
                           dfs := [df]
                           archivosOk := 1 } (by simp)
    exact ⟨st', by
      unfold procesaArchivos
      rw [procesaDesde_cons_ok hoja estadoInicial _ a resto hpa]
      exact hst'⟩

theorem procesaArchivos_spec (hoja : String) (archivos : List Archivo)
    (st : Estado) (h : procesaArchivos archivos hoja = .ok st) :
    st.dfs = tablasExitosas hoja archivos ∧
    st.archivosOk = (tablasExitosas hoja archivos).length ∧
    st.errores.length = cuentaFallos hoja archivos := by
  obtain ⟨h1, h2, h3⟩ := procesaDesde_spec hoja archivos estadoInicial st h
  refine ⟨?_, ?_, ?_⟩
  · simpa [estadoInicial] using h1
  · simpa [estadoInicial] using h2
  · simpa [estadoInicial] using h3

/-! ## Concatenation facts -/

theorem length_filas_concat (ts : List Tabla) :
    (concatIgnoreIndex ts).filas.length =
      (ts.map (fun t => t.filas.length)).sum := by
  simp [concatIgnoreIndex, List.length_flatMap, Function.comp_def]

theorem filas_concat (ts : List Tabla) :
    (concatIgnoreIndex ts).filas =
      ts.flatMap (fun t =>
        t.filas.map (fun f => reindexaFila t.columnas f (columnasUnion ts))) :=
  rfl

theorem reindexaFila_self (cols : List String) (f : List Celda)
    (hnd : cols.Nodup) (hlen : f.length = cols.length) :
    reindexaFila cols f cols = f := by
  induction cols generalizing f with
  | nil =>
    cases f with
    | nil => rfl
    | cons v vs => simp at hlen
  | cons c cs ih =>
    cases f with
    | nil => simp at hlen
    | cons v vs =>
      simp only [List.nodup_cons] at hnd
      simp only [List.length_cons, Nat.add_right_cancel_iff] at hlen
      simp only [reindexaFila, List.map_cons, List.zip_cons_cons,
        List.lookup_cons_self, Option.getD_some]
      refine congrArg (v :: ·) ?_
      have hstep : ∀ x ∈ cs,
          (((c, v) :: cs.zip vs).lookup x).getD none =
            ((cs.zip vs).lookup x).getD none := by
        intro x hx
        have hxc : (x == c) = false := by
          simp only [beq_eq_false_iff_ne, ne_eq]
          intro hxeq
          exact hnd.1 (hxeq ▸ hx)
        simp [List.lookup_cons, hxc]
      calc cs.map (fun x => (((c, v) :: cs.zip vs).lookup x).getD none)
          = cs.map (fun x => ((cs.zip vs).lookup x).getD none) :=
            List.map_congr_left hstep
        _ = vs := ih vs hnd.2 hlen

theorem unionColumnas_self (cols : List String) :
    unionColumnas cols cols = cols := by
  have : cols.filter (fun c => !cols.contains c) = [] := by
    apply List.filter_eq_nil_iff.mpr
    intro c hc
    simp [hc]
  simp [unionColumnas, this]

theorem unionColumnas_nil (cols : List String) :
    unionColumnas [] cols = cols := by
  simp [unionColumnas, List.filter_eq_self]

theorem columnasUnion_const (cols0 : List String) (ts : List Tabla)
    (hne : ts ≠ []) (hall : ∀ t ∈ ts, t.columnas = cols0) :
    columnasUnion ts = cols0 := by
  have aux : ∀ (us : List Tabla), (∀ t ∈ us, t.columnas = cols0) →
      us.foldl (fun acc t => unionColumnas acc t.columnas) cols0 = cols0 := by
    intro us
    induction us with
    | nil => intro _; rfl
    | cons u us ih =>
      intro hu
      have h1 : u.columnas = cols0 := hu u (by simp)
      simp only [List.foldl_cons, h1, unionColumnas_self]
      exact ih (fun t ht => hu t (by simp [ht]))
  cases ts with
  | nil => exact absurd rfl hne
  | cons t ts =>
    have h1 : t.columnas = cols0 := hall t (by simp)
    simp only [columnasUnion, List.foldl_cons, h1, unionColumnas_nil]
    exact aux ts (fun u hu => hall u (by simp [hu]))

/-- Under a shared schema (same duplicate-free column list everywhere, rows
of matching width), the concatenated frame is literally the rows of the
input frames, stacked in order. -/
theorem filas_concat_same_schema (cols0 : List String) (ts : List Tabla)
    (hne : ts ≠ []) (hnd : cols0.Nodup)
    (hall : ∀ t ∈ ts, t.columnas = cols0)
    (hrows : ∀ t ∈ ts, ∀ f ∈ t.filas, f.length = cols0.length) :
    (concatIgnoreIndex ts).filas = ts.flatMap (fun t => t.filas) := by
  rw [filas_concat, columnasUnion_const cols0 ts hne hall]
  refine List.flatMap_congr ?_
  intro t ht
  rw [hall t ht]
  calc t.filas.map (fun f => reindexaFila cols0 f cols0)
      = t.filas.map id := List.map_congr_left (fun f hf =>
          reindexaFila_self cols0 f hnd (hrows t ht f hf))
    _ = t.filas := List.map_id t.filas

/-! ## Inversion of the merge function -/

theorem unificar_ok_inversion (archivos : List Archivo) (hoja : String)
    (r : Resultado) (h : unificar_archivos_subidos archivos hoja = .ok r) :
    (archivos = [] ∧ r = ⟨none, "No se han seleccionado archivos.", []⟩) ∨
    (archivos ≠ [] ∧ ∃ st, procesaArchivos archivos hoja = .ok st ∧
      ((st.dfs = [] ∧
        r = ⟨none, "No se pudo procesar ningún archivo correctamente.",
              st.errores⟩) ∨
       (st.dfs ≠ [] ∧
        r = ⟨some (concatIgnoreIndex st.dfs),
              mensajeExito st.archivosOk (concatIgnoreIndex st.dfs).filas.length,
              st.errores⟩))) := by
  unfold unificar_archivos_subidos at h
  by_cases hne : archivos.isEmpty
  · left
    rw [if_pos hne] at h
    cases h
    exact ⟨List.isEmpty_iff.mp hne, rfl⟩
  · right
    refine ⟨fun hc => hne (by simp [hc]), ?_⟩
    rw [if_neg hne] at h
    cases hp : procesaArchivos archivos hoja with
    | error e => rw [hp] at h; simp [Except.map] at h
    | ok st =>
      rw [hp] at h
      simp only [Except.map] at h
      refine ⟨st, rfl, ?_⟩
      by_cases hemp : st.dfs.isEmpty
      · left
        rw [if_pos hemp] at h
        cases h
        exact ⟨List.isEmpty_iff.mp hemp, rfl⟩
      · right
        rw [if_neg hemp] at h
        cases h
        exact ⟨fun hc => hemp (by simp [hc]), rfl⟩

theorem unificar_ok_total (a : Archivo) (resto : List Archivo)
    (hoja n : String) (hn : a.nameRes = .ok n) :
    ∃ r, unificar_archivos_subidos (a :: resto) hoja = .ok r := by
  obtain ⟨st, hst⟩ := procesaArchivos_total hoja a n resto hn
  refine ⟨if st.dfs.isEmpty then
      ⟨none, "No se pudo procesar ningún archivo correctamente.", st.errores⟩
    else
      ⟨some (concatIgnoreIndex st.dfs),
        mensajeExito st.archivosOk (concatIgnoreIndex st.dfs).filas.length,
        st.errores⟩, ?_⟩
  unfold unificar_archivos_subidos
  rw [if_neg (by simp), hst]
  simp only [Except.map]

/-! ## Claim theorems -/

theorem parseDecimal_den_pos (s : String) (nd : Nat × Nat)
    (h : parseDecimal? s = some nd) : 0 < nd.2 := by
  unfold parseDecimal? at h
  split at h
  · split at h
    · cases h; exact Nat.one_pos
    · cases h
  · split at h
    · cases h; exact Nat.pos_pow_of_pos _ (by norm_num)
    · cases h
  · cases h

/-- C5: the automatic refresh call is attempted exactly when the reported
API version denotes 2.8 or above.  For every version string the check can
evaluate (every string `float` parses, denoting the rational
`valorDecimal nd`), the automatic path is taken iff `2.8 ≤` that value
and the manual-instructions path iff it is `< 2.8`; in particular `"2.5"`
routes to manual instructions without attempting `refresh`, and `"2.8"`
(and above, e.g. `"3.4"`) attempts `refresh`. -/
theorem C5_umbral_version_refresh :
    (∀ (s : String) (nd : Nat × Nat), parseDecimal? s = some nd →
      (rutaActualizacion s = .ok .automatica ↔
        (28 : ℚ) / 10 ≤ valorDecimal nd) ∧
      (rutaActualizacion s = .ok .manual ↔
        valorDecimal nd < (28 : ℚ) / 10)) ∧
    rutaActualizacion "2.5" = .ok .manual ∧
    rutaActualizacion "2.8" = .ok .automatica ∧
    rutaActualizacion "3.4" = .ok .automatica := by
  refine ⟨?_, by decide, by decide, by decide⟩
  intro s nd hv
  have hden : 0 < nd.2 := parseDecimal_den_pos s nd hv
  have hden' : (0 : ℚ) < (nd.2 : ℚ) := by exact_mod_cast hden
  have hiff : valorDecimal nd < (28 : ℚ) / 10 ↔ 10 * nd.1 < 28 * nd.2 := by
    unfold valorDecimal
    rw [div_lt_div_iff₀ hden' (by norm_num)]
    rw [show ((nd.1 : ℚ) * 10) = ((10 * nd.1 : Nat) : ℚ) by push_cast; ring,
        show ((28 : ℚ) * (nd.2 : ℚ)) = ((28 * nd.2 : Nat) : ℚ) by
          push_cast; ring]
    exact Nat.cast_lt
  rcases Nat.lt_or_ge (10 * nd.1) (28 * nd.2) with hlt | hge
  · have hval : valorDecimal nd < (28 : ℚ) / 10 := hiff.mpr hlt
    simp only [rutaActualizacion, hv, if_pos hlt]
    exact ⟨iff_of_false (by simp) (not_le.mpr hval), by simpa using hval⟩
  · have hnval : ¬ valorDecimal nd < (28 : ℚ) / 10 := fun hc =>
      absurd (hiff.mp hc) (by omega)
    simp only [rutaActualizacion, hv,
      if_neg (by omega : ¬ 10 * nd.1 < 28 * nd.2)]
    exact ⟨by simpa using (not_lt.mp hnval), iff_of_false (by simp) hnval⟩

/-- Witness for C5 at the concrete version string `"2.5"`, which parses
to the pair `(25, 10)` denoting `5/2 < 2.8`: the manual path is taken. -/
theorem C5_umbral_version_refresh_witness :
    rutaActualizacion "2.5" = .ok .manual :=
  ((C5_umbral_version_refresh.1 "2.5" (25, 10) (by decide)).2).mpr
    (by norm_num [valorDecimal])

/-- C6: when the datasource lookup finds no exact match, at most the first
10 available names are shown, together with the remaining count; with 15
datasources on the server, exactly 10 names are shown and the remaining
count is 5. -/
theorem C6_muestra_primeras_diez (nombres : List String) (objetivo : String)
    (_hbusca : buscar_fuente_datos nombres objetivo = none) :
    (muestraDisponibles nombres).1.length ≤ 10 ∧
    (muestraDisponibles nombres).1 = nombres.take 10 ∧
    (10 < nombres.length →
      (muestraDisponibles nombres).2 = some (nombres.length - 10)) ∧
    (nombres.length = 15 →
      (muestraDisponibles nombres).1.length = 10 ∧
      (muestraDisponibles nombres).2 = some 5) := by
  refine ⟨?_, rfl, ?_, ?_⟩
  · simp [muestraDisponibles]
  · intro h
    simp [muestraDisponibles, h]
  · intro h15
    constructor
    · simp [muestraDisponibles, h15]
    · simp [muestraDisponibles, h15]

/-- Witness for C6: a server with the 15 datasources of `quinceFuentes`,
looked up for an absent name: 10 names shown, 5 remaining. -/
theorem C6_muestra_primeras_diez_witness :
    (muestraDisponibles quinceFuentes).1.length = 10 ∧
    (muestraDisponibles quinceFuentes).2 = some 5 :=
  (C6_muestra_primeras_diez quinceFuentes "NoExiste"
      (by decide)).2.2.2 (by decide)

/-- C7: the decoding engine is selected purely from the file name — a name
whose extension (final dot-separated component of the lowercased name,
lines 30–31) is the legacy `xls` gets the legacy `xlrd` engine, and every
other name gets the default engine (`none`, pandas' modern zip-based
reader).  The dispatch never looks at content: `motorPara` takes only the
name, exactly as lines 30–35 inspect only `nombre_archivo`. -/
theorem C7_motor_por_extension :
    (∀ nombre : String,
      (extensionDe nombre = "xls" → motorPara nombre = some "xlrd") ∧
      (extensionDe nombre ≠ "xls" → motorPara nombre = none)) ∧
    motorPara "Informe.XLS" = some "xlrd" ∧
    motorPara "informe.xls" = some "xlrd" ∧
    motorPara "informe.xlsx" = none ∧
    motorPara "datos.XLSX" = none := by
  refine ⟨?_, by decide, by decide, by decide, by decide⟩
  intro nombre
  constructor
  · intro h
    simp [motorPara, h]
  · intro h
    simp [motorPara, h]

/-- Witness for C7 at the concrete legacy-named file `"Reporte.XLS"`. -/
theorem C7_motor_por_extension_witness :
    motorPara "Reporte.XLS" = some "xlrd" :=
  (C7_motor_por_extension.1 "Reporte.XLS").1 (by decide)

/-- C1: for every non-empty batch in which at least one input is
successfully read (in particular the first input's name retrieval
succeeds — otherwise the loop aborts before reading anything, see C8),
the merge returns a dataset whose row count is the sum of the row counts
of the successfully read per-file tables, and the returned message states
exactly that total (and the success count). -/
theorem C1_total_filas_preservado (a : Archivo) (resto : List Archivo)
    (hoja n : String) (hn : a.nameRes = .ok n)
    (hexito : tablasExitosas hoja (a :: resto) ≠ []) :
    ∃ (r : Resultado) (df : Tabla),
      unificar_archivos_subidos (a :: resto) hoja = .ok r ∧
      r.dataset = some df ∧
      df.filas.length =
        ((tablasExitosas hoja (a :: resto)).map
          (fun t => t.filas.length)).sum ∧
      r.mensaje = mensajeExito (tablasExitosas hoja (a :: resto)).length
        df.filas.length := by
  obtain ⟨st, hst⟩ := procesaArchivos_total hoja a n resto hn
  obtain ⟨h1, h2, h3⟩ := procesaArchivos_spec hoja (a :: resto) st hst
  have hemp : st.dfs.isEmpty = false := by
    rw [h1]
    exact List.isEmpty_eq_false.mpr hexito
  refine ⟨⟨some (concatIgnoreIndex st.dfs),
      mensajeExito st.archivosOk (concatIgnoreIndex st.dfs).filas.length,
      st.errores⟩, concatIgnoreIndex st.dfs, ?_, rfl, ?_, ?_⟩
  · unfold unificar_archivos_subidos
    rw [if_neg (by simp), hst]
    simp only [Except.map, hemp, Bool.false_eq_true, if_false]
  · rw [h1, length_filas_concat]
  · simp only [h2, h1]

/-- Witness for C1: two readable uploads holding `tablaA` (2 rows) and
`tablaB` (1 row) merge into a 3-row dataset, reported as such. -/
theorem C1_total_filas_preservado_witness :
    ∃ (r : Resultado) (df : Tabla),
      unificar_archivos_subidos
        [archivoBueno "enero.xlsx" tablaA, archivoBueno "febrero.xlsx" tablaB]
        "Itemization" = .ok r ∧
      r.dataset = some df ∧
      df.filas.length =
        ((tablasExitosas "Itemization"
          [archivoBueno "enero.xlsx" tablaA, archivoBueno "febrero.xlsx" tablaB]).map
            (fun t => t.filas.length)).sum ∧
      r.mensaje = mensajeExito
        (tablasExitosas "Itemization"
          [archivoBueno "enero.xlsx" tablaA,
           archivoBueno "febrero.xlsx" tablaB]).length df.filas.length :=
  C1_total_filas_preservado (archivoBueno "enero.xlsx" tablaA)
    [archivoBueno "febrero.xlsx" tablaB] "Itemization" "enero.xlsx"
    rfl (by decide)

/-- C2: the rows of a returned merged dataset are exactly the rows of the
successfully read per-file tables, stacked in input order with no
reordering and no deduplication — each row aligned to the union of
columns; when all successful tables share one duplicate-free schema the
rows are stacked verbatim. -/
theorem C2_orden_filas (archivos : List Archivo) (hoja : String)
    (r : Resultado) (df : Tabla)
    (hok : unificar_archivos_subidos archivos hoja = .ok r)
    (hdf : r.dataset = some df) :
    df.filas = (tablasExitosas hoja archivos).flatMap
      (fun t => t.filas.map (fun f =>
        reindexaFila t.columnas f
          (columnasUnion (tablasExitosas hoja archivos)))) ∧
    (∀ cols0 : List String, cols0.Nodup →
      (∀ t ∈ tablasExitosas hoja archivos, t.columnas = cols0) →
      (∀ t ∈ tablasExitosas hoja archivos, ∀ f ∈ t.filas,
        f.length = cols0.length) →
      df.filas = (tablasExitosas hoja archivos).flatMap (fun t => t.filas)) := by
  rcases unificar_ok_inversion archivos hoja r hok with
    ⟨-, hr⟩ | ⟨-, st, hst, ⟨-, hr⟩ | ⟨hne, hr⟩⟩
  · rw [hr] at hdf; cases hdf
  · rw [hr] at hdf; cases hdf
  · obtain ⟨h1, -, -⟩ := procesaArchivos_spec hoja archivos st hst
    rw [hr] at hdf
    simp only [Option.some.injEq] at hdf
    subst hdf
    rw [h1] at hne ⊢
    constructor
    · exact filas_concat (tablasExitosas hoja archivos)
    · intro cols0 hnd hcols hlongs
      exact filas_concat_same_schema cols0 (tablasExitosas hoja archivos)
        hne hnd hcols hlongs

/-- Witness for C2: the merged dataset of two same-schema uploads is
their rows stacked in order. -/
theorem C2_orden_filas_witness :
    (concatIgnoreIndex [tablaA, tablaB]).filas =
      tablaA.filas ++ tablaB.filas := by
  have h := C2_orden_filas
    [archivoBueno "enero.xlsx" tablaA, archivoBueno "febrero.xlsx" tablaB]
    "Itemization"
    ⟨some (concatIgnoreIndex [tablaA, tablaB]),
      mensajeExito 2 (concatIgnoreIndex [tablaA, tablaB]).filas.length, []⟩
    (concatIgnoreIndex [tablaA, tablaB]) (by decide) rfl
  have h2 := h.2 ["col1", "col2"] (by decide) (by decide) (by decide)
  simpa using h2

/-- C3: with every input's name retrievable, per-file read failures do not
abort the batch: the function returns normally; the failure records
displayed number exactly the `K` failing inputs; successes number
`N - K` (the sum identity in the statement); when `K < N` a dataset is
returned whose rows are exactly those of the `N - K` succeeded inputs in
order, with the message reporting `N - K` merged files; when `K = N` no
dataset is returned. -/
theorem C3_fallos_parciales (a : Archivo) (resto : List Archivo)
    (hoja : String)
    (hnombres : ∀ x ∈ a :: resto, x.nameRes.isOk = true) :
    ∃ r, unificar_archivos_subidos (a :: resto) hoja = .ok r ∧
      r.errores.length = cuentaFallos hoja (a :: resto) ∧
      (tablasExitosas hoja (a :: resto)).length +
        cuentaFallos hoja (a :: resto) = (a :: resto).length ∧
      (cuentaFallos hoja (a :: resto) < (a :: resto).length →
        ∃ df, r.dataset = some df ∧
          r.mensaje = mensajeExito
            ((a :: resto).length - cuentaFallos hoja (a :: resto))
            df.filas.length ∧
          df.filas = (tablasExitosas hoja (a :: resto)).flatMap
            (fun t => t.filas.map (fun f => reindexaFila t.columnas f
              (columnasUnion (tablasExitosas hoja (a :: resto)))))) ∧
      (cuentaFallos hoja (a :: resto) = (a :: resto).length →
        r.dataset = none) := by
  have hn : ∃ n, a.nameRes = .ok n := by
    have ha := hnombres a (by simp)
    cases hna : a.nameRes with
    | error e => rw [hna] at ha; simp [Except.isOk, Except.toBool] at ha
    | ok n => exact ⟨n, rfl⟩
  obtain ⟨n, hn⟩ := hn
  obtain ⟨st, hst⟩ := procesaArchivos_total hoja a n resto hn
  obtain ⟨h1, h2, h3⟩ := procesaArchivos_spec hoja (a :: resto) st hst
  have hsum := exitosas_add_fallos hoja (a :: resto)
  by_cases hemp : st.dfs = []
  · have hvacio : tablasExitosas hoja (a :: resto) = [] := by rw [← h1, hemp]
    refine ⟨⟨none, "No se pudo procesar ningún archivo correctamente.",
        st.errores⟩, ?_, h3, hsum, ?_, fun _ => rfl⟩
    · unfold unificar_archivos_subidos
      rw [if_neg (by simp), hst]
      simp [Except.map, hemp]
    · intro hK
      exfalso
      rw [hvacio] at hsum
      simp only [List.length_nil, Nat.zero_add] at hsum
      omega
  · refine ⟨⟨some (concatIgnoreIndex st.dfs),
        mensajeExito st.archivosOk (concatIgnoreIndex st.dfs).filas.length,
        st.errores⟩, ?_, h3, hsum, ?_, ?_⟩
    · unfold unificar_archivos_subidos
      rw [if_neg (by simp), hst]
      have : st.dfs.isEmpty = false := List.isEmpty_eq_false.mpr hemp
      simp [Except.map, this]
    · intro _
      refine ⟨concatIgnoreIndex st.dfs, rfl, ?_, ?_⟩
      · rw [h2]
        have : (tablasExitosas hoja (a :: resto)).length =
            (a :: resto).length - cuentaFallos hoja (a :: resto) := by omega
        rw [this]
      · rw [h1]
        exact filas_concat (tablasExitosas hoja (a :: resto))
    · intro hK
      exfalso
      apply hemp
      rw [h1]
      have : (tablasExitosas hoja (a :: resto)).length = 0 := by omega
      exact List.length_eq_zero.mp this

/-- Witness for C3: a batch of three inputs of which the middle one fails
to parse (`N = 3`, `K = 1`). -/
theorem C3_fallos_parciales_witness :
    ∃ r, unificar_archivos_subidos
        [archivoBueno "enero.xlsx" tablaA, archivoIlegible "roto.xlsx",
         archivoBueno "febrero.xlsx" tablaB] "Itemization" = .ok r ∧
      r.errores.length = cuentaFallos "Itemization"
        [archivoBueno "enero.xlsx" tablaA, archivoIlegible "roto.xlsx",
         archivoBueno "febrero.xlsx" tablaB] ∧
      (tablasExitosas "Itemization"
        [archivoBueno "enero.xlsx" tablaA, archivoIlegible "roto.xlsx",
         archivoBueno "febrero.xlsx" tablaB]).length +
        cuentaFallos "Itemization"
          [archivoBueno "enero.xlsx" tablaA, archivoIlegible "roto.xlsx",
           archivoBueno "febrero.xlsx" tablaB] = 3 :=
  have h := C3_fallos_parciales (archivoBueno "enero.xlsx" tablaA)
    [archivoIlegible "roto.xlsx", archivoBueno "febrero.xlsx" tablaB]
    "Itemization" (by decide)
  ⟨h.choose, h.choose_spec.1, h.choose_spec.2.1, h.choose_spec.2.2.1⟩

/-- C4: no dataset is returned exactly when zero inputs are successfully
read.  An empty selection short-circuits (before the loop, so no reader
runs) to no dataset with the no-files message and no failure records; a
non-empty batch whose inputs all fail returns no dataset with the
total-failure message; and in every normally-returning run, the dataset
is absent iff the set of successfully read tables is empty. -/
theorem C4_dataset_sii_exitos :
    (∀ hoja, unificar_archivos_subidos [] hoja =
      .ok ⟨none, "No se han seleccionado archivos.", []⟩) ∧
    (∀ (a : Archivo) (resto : List Archivo) (hoja n : String),
      a.nameRes = .ok n → tablasExitosas hoja (a :: resto) = [] →
      ∃ r, unificar_archivos_subidos (a :: resto) hoja = .ok r ∧
        r.dataset = none ∧
        r.mensaje = "No se pudo procesar ningún archivo correctamente.") ∧
    (∀ (archivos : List Archivo) (hoja : String) (r : Resultado),
      unificar_archivos_subidos archivos hoja = .ok r →
      (r.dataset = none ↔ tablasExitosas hoja archivos = [])) := by
  refine ⟨fun hoja => rfl, ?_, ?_⟩
  · intro a resto hoja n hn hvacio
    obtain ⟨st, hst⟩ := procesaArchivos_total hoja a n resto hn
    obtain ⟨h1, -, -⟩ := procesaArchivos_spec hoja (a :: resto) st hst
    have hemp : st.dfs = [] := by rw [h1, hvacio]
    refine ⟨⟨none, "No se pudo procesar ningún archivo correctamente.",
        st.errores⟩, ?_, rfl, rfl⟩
    unfold unificar_archivos_subidos
    rw [if_neg (by simp), hst]
    simp [Except.map, hemp]
  · intro archivos hoja r hok
    rcases unificar_ok_inversion archivos hoja r hok with
      ⟨hnil, hr⟩ | ⟨-, st, hst, ⟨hemp, hr⟩ | ⟨hne, hr⟩⟩
    · subst hnil
      rw [hr]
      simp [tablasExitosas]
    · obtain ⟨h1, -, -⟩ := procesaArchivos_spec hoja archivos st hst
      rw [hr]
      simp [← h1, hemp]
    · obtain ⟨h1, -, -⟩ := procesaArchivos_spec hoja archivos st hst
      rw [hr]
      simp [← h1, hne]

/-- Witness for C4 (all-fail branch): one unreadable upload yields no
dataset and the total-failure message. -/
theorem C4_dataset_sii_exitos_witness :
    ∃ r, unificar_archivos_subidos [archivoIlegible "roto.xlsx"]
        "Itemization" = .ok r ∧
      r.dataset = none ∧
      r.mensaje = "No se pudo procesar ningún archivo correctamente." :=
  C4_dataset_sii_exitos.2.1 (archivoIlegible "roto.xlsx") [] "Itemization"
    "roto.xlsx" rfl (by decide)

/-- C10: at every point of the loop — after any prefix of the inputs —
the success counter equals the number of accumulated tables; hence in a
run that returns a dataset, the final message's file count equals the
number of tables concatenated into it and its row count is the dataset's
length. -/
theorem C10_contador_invariante :
    (∀ (hoja : String) (archivos : List Archivo) (i : Nat) (st : Estado),
      procesaDesde hoja estadoInicial (archivos.take i) = .ok st →
      st.archivosOk = st.dfs.length) ∧
    (∀ (archivos : List Archivo) (hoja : String) (r : Resultado) (df : Tabla),
      unificar_archivos_subidos archivos hoja = .ok r →
      r.dataset = some df →
      df = concatIgnoreIndex (tablasExitosas hoja archivos) ∧
      r.mensaje = mensajeExito (tablasExitosas hoja archivos).length
        df.filas.length) := by
  constructor
  · intro hoja archivos i st h
    obtain ⟨h1, h2, -⟩ :=
      procesaDesde_spec hoja (archivos.take i) estadoInicial st h
    simp only [estadoInicial] at h1 h2
    rw [h1, h2]
    simp
  · intro archivos hoja r df hok hdf
    rcases unificar_ok_inversion archivos hoja r hok with
      ⟨-, hr⟩ | ⟨-, st, hst, ⟨-, hr⟩ | ⟨-, hr⟩⟩
    · rw [hr] at hdf; cases hdf
    · rw [hr] at hdf; cases hdf
    · obtain ⟨h1, h2, -⟩ := procesaArchivos_spec hoja archivos st hst
      rw [hr] at hdf
      simp only [Option.some.injEq] at hdf
      subst hdf
      rw [hr]
      exact ⟨by rw [h1], by simp only [h1, h2]⟩

/-- Witness for C10: the state after the 1-element prefix of a
one-upload batch has counter 1 and one accumulated table. -/
theorem C10_contador_invariante_witness :
    (⟨[tablaA], 1, [], some "enero.xlsx"⟩ : Estado).archivosOk =
      (⟨[tablaA], 1, [], some "enero.xlsx"⟩ : Estado).dfs.length :=
  C10_contador_invariante.1 "Itemization"
    [archivoBueno "enero.xlsx" tablaA] 1
    ⟨[tablaA], 1, [], some "enero.xlsx"⟩ (by decide)

/-- C8 (code bug): the failure-handling branch can itself raise.  The
`except` handler of line 51 interpolates `nombre_archivo`; if retrieving
the first input's name raised, that local variable was never assigned and
the handler raises `UnboundLocalError`, aborting the whole batch instead
of recording an error and continuing.  Moreover, when a later input's
name retrieval raises, the handler labels the error with the previous
input's name, not the failing input's. -/
theorem C8_manejador_fallo_falla :
    unificar_archivos_subidos
        [archivoSinNombre, archivoBueno "enero.xlsx" tablaA] "Itemization" =
      .error "UnboundLocalError: local variable nombre_archivo referenced before assignment" ∧
    (∃ r, unificar_archivos_subidos
        [archivoBueno "enero.xlsx" tablaA, archivoSinNombre] "Itemization" =
        .ok r ∧
      r.errores = [mensajeError "enero.xlsx"
        "AttributeError: el objeto no tiene atributo name"]) := by
  refine ⟨by decide, ⟨⟨some (concatIgnoreIndex [tablaA]),
    mensajeExito 1 (concatIgnoreIndex [tablaA]).filas.length,
    [mensajeError "enero.xlsx"
      "AttributeError: el objeto no tiene atributo name"]⟩, by decide, rfl⟩⟩

/-- C9: the artifact writer emits exactly one sheet, under exactly the
caller's output sheet name; its grid is the header row of the dataset's
columns followed by one row per data row — the data rows are the dataset's
rows themselves, with no index/row-number column prepended. -/
theorem C9_artefacto_una_hoja (t : Tabla) (nombreHoja : String) :
    (escribirArtefacto t nombreHoja).hojas.length = 1 ∧
    (escribirArtefacto t nombreHoja).hojas =
      [(nombreHoja, (t.columnas.map some) :: t.filas)] ∧
    ((escribirArtefacto t nombreHoja).hojas.map Prod.fst) = [nombreHoja] ∧
    (serializaTabla t false).length = t.filas.length + 1 ∧
    (serializaTabla t false).tail = t.filas := by
  refine ⟨rfl, ?_, rfl, ?_, ?_⟩ <;> simp [escribirArtefacto, serializaTabla]

end TableauApp
